import Mathlib

/-!
Verification of the `mesh` package: a shallow embedding of its record
parser (`mesh/reader.py`), entity extractors (`mesh/descriptors_reader.py`,
`mesh/chemicals_reader.py`), enrichers (`mesh/enrichers/*.py`) and the
DAG builder (`mesh/dataset.py`), together with theorems settling the
specification's claims about them.

String primitives are implemented by structural recursion over character
lists so that every definition evaluates inside the kernel.
-/

deriving instance DecidableEq for Except

namespace Mesh

/-! ### Python string primitives -/

/-- Characters Python's `str.strip()` removes. -/
def pyIsSpace (c : Char) : Bool :=
  c == ' ' || c == '\t' || c == '\n' || c == '\r' || c == '\x0b' || c == '\x0c'

/-- Strip characters satisfying `pred` from both ends of a character
list. -/
def stripChars (pred : Char → Bool) (l : List Char) : List Char :=
  ((l.dropWhile pred).reverse.dropWhile pred).reverse

/-- Python `str.strip()`: remove leading and trailing whitespace. -/
def pyStrip (s : String) : String := ⟨stripChars pyIsSpace s.data⟩

/-- Python `str.strip(" *")`: remove leading and trailing spaces and
asterisks. -/
def pyStripSpaceStar (s : String) : String :=
  ⟨stripChars (fun c => c == ' ' || c == '*') s.data⟩

/-- Split a character list at every occurrence of the (nonempty)
separator, scanning left to right; the Python semantics of
`str.split(sep)`: `split '.' "a..b" = ["a", "", "b"]` and
`split '.' "" = [""]`. -/
def splitCharList (sep : Char) : List Char → List (List Char)
  | [] => [[]]
  | c :: cs =>
    if c == sep then [] :: splitCharList sep cs
    else
      match splitCharList sep cs with
      | [] => [[c]]
      | g :: gs => (c :: g) :: gs

/-- Python `str.split(sep)` for a one-character separator. -/
def pySplit (sep : Char) (s : String) : List String :=
  (splitCharList sep s.data).map String.mk

/-- Find the first occurrence of the (nonempty) separator and split
around it: the semantics of Python `str.split(sep, 1)`, returning `none`
when the separator does not occur (i.e. `sep in s` is false). -/
def splitFirstAt (sep : List Char) : List Char → Option (List Char × List Char)
  | [] => none
  | c :: cs =>
    if sep.isPrefixOf (c :: cs) then some ([], (c :: cs).drop sep.length)
    else
      match splitFirstAt sep cs with
      | none => none
      | some (k, v) => some (c :: k, v)

/-- Python `s.split(" = ", 1)` together with the `" = " in s` test. -/
def splitKeyValue (s : String) : Option (String × String) :=
  (splitFirstAt " = ".data s.data).map (fun p => (String.mk p.1, String.mk p.2))

/-- Python `str.startswith`. -/
def pyStartsWith (s pre : String) : Bool := pre.data.isPrefixOf s.data

/-- Python `s[:1]` (first character as a string, empty when `s` is
empty). -/
def pyTake1 (s : String) : String := ⟨s.data.take 1⟩

/-- Python `s[1:]`. -/
def pyDrop1 (s : String) : String := ⟨s.data.drop 1⟩

/-- Python `str.isdigit` on ASCII text: nonempty and all decimal
digits. -/
def pyIsDigit (s : String) : Bool :=
  !s.data.isEmpty && s.data.all Char.isDigit

/-- Python `sep.join`. -/
def joinSep (sep : String) : List String → String
  | [] => ""
  | [x] => x
  | x :: y :: xs => x ++ sep ++ joinSep sep (y :: xs)

/-- Emptiness of a string through its character list. -/
def strIsEmpty (s : String) : Bool := s.data.isEmpty

/-! ### The record parser (`mesh/reader.py`) -/

/-- A raw MESH record, mirroring `MESHRecord` in `mesh/reader.py`:
an insertion-ordered mapping from field key to the list of values seen for
that key, plus the optional record type (`_record_type`) and optional
unique identifier (`_unique_identifier`). -/
structure MESHRecord where
  record : List (String × List String)
  record_type : Option String
  unique_identifier : Option String
deriving Repr, DecidableEq

/-- The fresh record built by `MESHRecord.__init__`. -/
def MESHRecord.empty : MESHRecord := ⟨[], none, none⟩

/-- `MESHRecord.is_complete`: record type and unique identifier are both
set and at least one other field has been stored. -/
def MESHRecord.is_complete (r : MESHRecord) : Bool :=
  r.record_type.isSome && r.unique_identifier.isSome && !r.record.isEmpty

/-- Lookup of a key in the ordered field map (Python `dict` access:
keys are unique in the association list, so the first hit is the value). -/
def MESHRecord.getVals (r : MESHRecord) (k : String) : Option (List String) :=
  (r.record.find? (fun p => p.1 == k)).map (fun p => p.2)

/-- `MESHRecord.add_key_value` without its (already re-checked) emptiness
asserts: append `v` to the value list of `k`, creating the key at the end
of the insertion order if absent. -/
def MESHRecord.addKeyValue (r : MESHRecord) (k v : String) : MESHRecord :=
  if (r.record.find? (fun p => p.1 == k)).isSome then
    { r with record := r.record.map (fun p => if p.1 == k then (p.1, p.2 ++ [v]) else p) }
  else
    { r with record := r.record ++ [(k, [v])] }

/-- The distinct ways the reader can fail, one per `assert` (or `None`
attribute access) reachable in `MESHReader.__iter__` and the setters of
`MESHRecord` in `mesh/reader.py`. -/
inductive ParseErr where
  /-- A record method was invoked while `record` is `None`
  (Python `AttributeError`). -/
  | noneRecord
  /-- `assert record.is_complete()` failed at a `*NEWRECORD` sentinel. -/
  | incompleteAtSentinel
  /-- `assert " = " in line` failed. -/
  | badSeparator
  /-- `assert len(key) > 0` failed. -/
  | emptyKey
  /-- `assert len(value) > 0` failed. -/
  | emptyValue
  /-- `set_record_type`: `assert self._record_type is None` failed. -/
  | recordTypeAlreadySet
  /-- `set_record_type`: the value is not one of `C`, `D`, `Q`. -/
  | invalidRecordType
  /-- `set_unique_identifier`: `assert self._unique_identifier is None`
  failed. -/
  | uidAlreadySet
  /-- `set_unique_identifier`: `assert self._record_type is not None`
  failed. -/
  | uidBeforeRecordType
  /-- `set_unique_identifier`: the identifier does not start with the
  record type letter. -/
  | uidWrongStart
  /-- `set_unique_identifier`: the characters after the first are not a
  nonempty run of decimal digits (`str.isdigit`). -/
  | uidNotDigits
  /-- At end of file, the `record.record_type` property's
  `assert self._record_type is not None` failed. -/
  | finalNoRecordType
deriving Repr, DecidableEq

/-- `MESHRecord.set_record_type`: first assignment only, value must be one
of the three one-letter codes. -/
def MESHRecord.setRecordType (r : MESHRecord) (v : String) : Except ParseErr MESHRecord :=
  if r.record_type.isSome then .error .recordTypeAlreadySet
  else if v = "C" ∨ v = "D" ∨ v = "Q" then .ok { r with record_type := some v }
  else .error .invalidRecordType

/-- `MESHRecord.set_unique_identifier`: first assignment only, requires a
record type, the identifier must start with the record type letter and its
remainder must satisfy `str.isdigit`. -/
def MESHRecord.setUniqueIdentifier (r : MESHRecord) (v : String) : Except ParseErr MESHRecord :=
  if r.unique_identifier.isSome then .error .uidAlreadySet
  else
    match r.record_type with
    | none => .error .uidBeforeRecordType
    | some t =>
      if !pyStartsWith v t then .error .uidWrongStart
      else if !pyIsDigit (pyDrop1 v) then .error .uidNotDigits
      else .ok { r with unique_identifier := some v }

/-- Processing of one input line by the body of the `for line in file`
loop of `MESHReader.__iter__`: the state is the optional open record and
the list of records yielded so far. -/
def step (record : Option MESHRecord) (out : List MESHRecord) (rawLine : String) :
    Except ParseErr (Option MESHRecord × List MESHRecord) :=
  let line := pyStrip rawLine
  if strIsEmpty line then .ok (record, out)
  else if line = "*NEWRECORD" then
    match record with
    | none => .ok (some MESHRecord.empty, out)
    | some r =>
      if r.is_complete then .ok (some MESHRecord.empty, out ++ [r])
      else .error .incompleteAtSentinel
  else
    match splitKeyValue line with
    | none => .error .badSeparator
    | some (key, value) =>
      if strIsEmpty key then .error .emptyKey
      else if strIsEmpty value then .error .emptyValue
      else if key = "RECTYPE" then
        match record with
        | none => .error .noneRecord
        | some r => (r.setRecordType value).map (fun r' => (some r', out))
      else if key = "UI" then
        match record with
        | none => .error .noneRecord
        | some r => (r.setUniqueIdentifier value).map (fun r' => (some r', out))
      else
        match record with
        | none => .error .noneRecord
        | some r => .ok (some (r.addKeyValue key value), out)

/-- The `for line in file` loop of `MESHReader.__iter__`. -/
def readLoop : List String → Option MESHRecord → List MESHRecord →
    Except ParseErr (Option MESHRecord × List MESHRecord)
  | [], record, out => .ok (record, out)
  | l :: rest, record, out =>
    match step record out l with
    | .error e => .error e
    | .ok (record', out') => readLoop rest record' out'

/-- The epilogue of `MESHReader.__iter__` after the loop:
`if record.record_type is not None: yield record`. Accessing
`record.record_type` on `None` is an `AttributeError`; the property itself
asserts the type is set, so when it returns, the final record is always
yielded — without any completeness check. -/
def finalize (record : Option MESHRecord) (out : List MESHRecord) :
    Except ParseErr (List MESHRecord) :=
  match record with
  | none => .error .noneRecord
  | some r =>
    match r.record_type with
    | none => .error .finalNoRecordType
    | some _ => .ok (out ++ [r])

/-- `MESHReader.__iter__` on the file's lines: run the loop from the empty
state and apply the epilogue. The returned list is the full sequence of
yielded records. -/
def parseMESH (lines : List String) : Except ParseErr (List MESHRecord) :=
  match readLoop lines none [] with
  | .error e => .error e
  | .ok (record, out) => finalize record out

/-- Number of sentinel lines in a file (lines whose stripped text is
exactly `*NEWRECORD`). -/
def countSentinels (lines : List String) : Nat :=
  (lines.filter (fun l => pyStrip l = "*NEWRECORD")).length


/-! ### Parser bookkeeping lemmas -/

theorem strIsEmpty_ne_sentinel {s : String} (h : strIsEmpty s = true) :
    s ≠ "*NEWRECORD" := by
  intro hs
  subst hs
  exact absurd h (by decide)

/-- Bookkeeping for one parser step: a successful step increases the count
of records held (yielded plus the open one) by one exactly when the
stripped line is the `*NEWRECORD` sentinel. -/
theorem step_length {record : Option MESHRecord} {out : List MESHRecord} {l : String}
    {record' : Option MESHRecord} {out' : List MESHRecord}
    (h : step record out l = .ok (record', out')) :
    out'.length + (if record'.isSome then 1 else 0) =
      out.length + (if record.isSome then 1 else 0) +
        (if pyStrip l = "*NEWRECORD" then 1 else 0) := by
  simp only [step] at h
  split at h
  · rename_i hempty
    rw [if_neg (strIsEmpty_ne_sentinel hempty)]
    injection h with h1
    injection h1 with hr ho
    subst hr; subst ho
    rfl
  · split at h
    · rename_i hsent
      rw [if_pos hsent]
      split at h
      · injection h with h1
        injection h1 with hr ho
        subst hr; subst ho
        simp
      · split at h
        · injection h with h1
          injection h1 with hr ho
          subst hr; subst ho
          simp
        · exact absurd h (by simp)
    · rename_i hsent
      rw [if_neg hsent]
      split at h
      · exact absurd h (by simp)
      · rename_i k v hkv
        split at h
        · exact absurd h (by simp)
        · split at h
          · exact absurd h (by simp)
          · split at h
            · -- RECTYPE
              split at h
              · exact absurd h (by simp)
              · rename_i r
                cases hset : r.setRecordType v with
                | error e => rw [hset] at h; exact absurd h (by simp [Except.map])
                | ok r2 =>
                  rw [hset] at h
                  simp only [Except.map] at h
                  injection h with h1
                  injection h1 with hr2 ho
                  subst hr2; subst ho
                  simp
            · split at h
              · -- UI
                split at h
                · exact absurd h (by simp)
                · rename_i r
                  cases hset : r.setUniqueIdentifier v with
                  | error e => rw [hset] at h; exact absurd h (by simp [Except.map])
                  | ok r2 =>
                    rw [hset] at h
                    simp only [Except.map] at h
                    injection h with h1
                    injection h1 with hr2 ho
                    subst hr2; subst ho
                    simp
              · -- other key
                split at h
                · exact absurd h (by simp)
                · injection h with h1
                  injection h1 with hr2 ho
                  subst hr2; subst ho
                  simp


theorem countSentinels_cons (l : String) (rest : List String) :
    countSentinels (l :: rest) =
      (if pyStrip l = "*NEWRECORD" then 1 else 0) + countSentinels rest := by
  by_cases hc : pyStrip l = "*NEWRECORD"
  · simp [countSentinels, List.filter_cons, hc]
    omega
  · simp [countSentinels, List.filter_cons, hc]

/-- Accumulated bookkeeping over the whole line loop. -/
theorem readLoop_length :
    ∀ (lines : List String) (record : Option MESHRecord) (out : List MESHRecord)
      (record' : Option MESHRecord) (out' : List MESHRecord),
    readLoop lines record out = .ok (record', out') →
    out'.length + (if record'.isSome then 1 else 0) =
      out.length + (if record.isSome then 1 else 0) + countSentinels lines
  | [], record, out, record', out', h => by
    simp only [readLoop] at h
    injection h with h1
    injection h1 with hr ho
    subst hr; subst ho
    simp [countSentinels]
  | l :: rest, record, out, record', out', h => by
    simp only [readLoop] at h
    cases hs : step record out l with
    | error e => rw [hs] at h; exact absurd h (by simp)
    | ok p =>
      rw [hs] at h
      obtain ⟨record1, out1⟩ := p
      have ih := readLoop_length rest record1 out1 record' out' h
      have hst := step_length hs
      rw [countSentinels_cons]
      omega

/-- Claim C2 (amended): whenever the Record Parser succeeds on a file, the
number of yielded records equals the number of `*NEWRECORD` sentinel lines,
and every successfully parsed file contains at least one sentinel line (a
file with zero sentinel lines makes the parser raise rather than yield
zero records). -/
theorem parser_record_count {lines : List String} {recs : List MESHRecord}
    (h : parseMESH lines = .ok recs) :
    recs.length = countSentinels lines ∧ 1 ≤ countSentinels lines := by
  simp only [parseMESH] at h
  cases hl : readLoop lines none [] with
  | error e => rw [hl] at h; exact absurd h (by simp)
  | ok p =>
    rw [hl] at h
    obtain ⟨record, out⟩ := p
    cases record with
    | none => simp [finalize] at h
    | some r =>
      cases ht : r.record_type with
      | none => simp [finalize, ht] at h
      | some t =>
        simp only [finalize, ht] at h
        injection h with h
        have hlen := readLoop_length lines none [] (some r) out hl
        subst h
        simp at hlen ⊢
        omega


/-- Claim C1 (amended): the Record Parser fails exactly on these
conditions. Per line: a non-blank line that is not the sentinel and lacks
the literal `" = "` separator (or has an empty key or value); a value,
`RECTYPE` or `UI` line with no open record; a `RECTYPE` value outside
`{C, D, Q}` or a repeated `RECTYPE` assignment; a `UI` that is repeated,
set before `RECTYPE`, whose first character differs from the current
record type, or whose remaining characters are not a nonempty run of
decimal digits; a `*NEWRECORD` sentinel reached while the open record is
incomplete. At end of file: failure exactly when no record was ever opened
or the open record's `RECTYPE` is unset — an open record with `RECTYPE`
set is yielded even when incomplete. -/
theorem parser_error_characterization :
    (∀ (record : Option MESHRecord) (out : List MESHRecord) (l : String),
      (∃ e, step record out l = .error e) ↔
        (strIsEmpty (pyStrip l) = false ∧
          ((pyStrip l = "*NEWRECORD" ∧
             (match record with
              | none => False
              | some r => r.is_complete = false))
           ∨ (pyStrip l ≠ "*NEWRECORD" ∧
               (match splitKeyValue (pyStrip l) with
                | none => True
                | some (k, v) =>
                  strIsEmpty k = true
                  ∨ strIsEmpty v = true
                  ∨ (match record with
                     | none => True
                     | some r =>
                       (k = "RECTYPE" ∧
                         (r.record_type.isSome = true ∨ ¬(v = "C" ∨ v = "D" ∨ v = "Q")))
                       ∨ (k = "UI" ∧
                           (r.unique_identifier.isSome = true
                            ∨ (match r.record_type with
                               | none => True
                               | some t =>
                                 pyStartsWith v t = false
                                 ∨ pyIsDigit (pyDrop1 v) = false)))))))))
    ∧ (∀ (record : Option MESHRecord) (out : List MESHRecord),
        (∃ e, finalize record out = .error e) ↔
          (match record with
           | none => True
           | some r => r.record_type = none)) := by
  have e1 : strIsEmpty "*NEWRECORD" = false := by decide
  have e2 : strIsEmpty "RECTYPE" = false := by decide
  have e3 : strIsEmpty "UI" = false := by decide
  constructor
  · intro record out l
    by_cases h1 : strIsEmpty (pyStrip l) = true
    · simp [step, h1]
    · by_cases h2 : pyStrip l = "*NEWRECORD"
      · cases record with
        | none => simp [step, h1, h2, e1]
        | some r =>
          by_cases h3 : r.is_complete = true
          · simp [step, h1, h2, h3, e1]
          · simp [step, h1, h2, h3, e1]
      · cases hkv : splitKeyValue (pyStrip l) with
        | none => simp [step, h1, h2, hkv]
        | some kv =>
          obtain ⟨k, v⟩ := kv
          by_cases hk : strIsEmpty k = true
          · simp [step, h1, h2, hkv, hk]
          · by_cases hv : strIsEmpty v = true
            · simp [step, h1, h2, hkv, hk, hv]
            · by_cases hkr : k = "RECTYPE"
              · cases record with
                | none => simp [step, h1, h2, hkv, hk, hv, hkr, e2]
                | some r =>
                  by_cases h4 : r.record_type.isSome = true
                  · simp [step, h1, h2, hkv, hk, hv, hkr, e2,
                      MESHRecord.setRecordType, h4, Except.map]
                  · by_cases h5 : v = "C" ∨ v = "D" ∨ v = "Q"
                    · rcases h5 with h5 | h5 | h5 <;> subst h5 <;>
                        simp [step, h1, h2, hkv, hk, hv, hkr, e2,
                          MESHRecord.setRecordType, h4, Except.map]
                    · push_neg at h5
                      obtain ⟨h5c, h5d, h5q⟩ := h5
                      simp [step, h1, h2, hkv, hk, hv, hkr, e2,
                        MESHRecord.setRecordType, h4, h5c, h5d, h5q, Except.map]
              · by_cases hku : k = "UI"
                · cases record with
                  | none => simp [step, h1, h2, hkv, hk, hv, hkr, hku, e3]
                  | some r =>
                    by_cases h4 : r.unique_identifier.isSome = true
                    · simp [step, h1, h2, hkv, hk, hv, hkr, hku, e3,
                        MESHRecord.setUniqueIdentifier, h4, Except.map]
                    · cases hrt : r.record_type with
                      | none =>
                        simp [step, h1, h2, hkv, hk, hv, hkr, hku, e3,
                          MESHRecord.setUniqueIdentifier, h4, hrt, Except.map]
                      | some t =>
                        by_cases h5 : pyStartsWith v t = true
                        · by_cases h6 : pyIsDigit (pyDrop1 v) = true
                          · simp [step, h1, h2, hkv, hk, hv, hkr, hku, e3,
                              MESHRecord.setUniqueIdentifier, h4, hrt, h5, h6, Except.map]
                          · simp [step, h1, h2, hkv, hk, hv, hkr, hku, e3,
                              MESHRecord.setUniqueIdentifier, h4, hrt, h5, h6, Except.map]
                        · simp [step, h1, h2, hkv, hk, hv, hkr, hku, e3,
                            MESHRecord.setUniqueIdentifier, h4, hrt, h5, Except.map]
                · cases record with
                  | none => simp [step, h1, h2, hkv, hk, hv, hkr, hku]
                  | some r => simp [step, h1, h2, hkv, hk, hv, hkr, hku]
  · intro record out
    cases record with
    | none => simp [finalize]
    | some r =>
      cases hrt : r.record_type with
      | none => simp [finalize, hrt]
      | some t => simp [finalize, hrt]


/-- Counterexample to claim C1 as stated: a file ending while the open
record has its `RECTYPE` set but no unique identifier and no fields is
accepted, and the incomplete record is yielded — the parser does not
raise. -/
theorem parser_accepts_incomplete_record_at_eof :
    parseMESH ["*NEWRECORD", "RECTYPE = D"] =
      .ok [{ record := [], record_type := some "D", unique_identifier := none }] ∧
    MESHRecord.is_complete
      { record := [], record_type := some "D", unique_identifier := none } = false := by
  decide

/-- Counterexample to claim C2 as stated: on a file with zero sentinel
lines (here the empty file) the parser raises (the final
`record.record_type` access hits `None`) instead of yielding zero
records. -/
theorem parser_errors_on_zero_sentinels :
    parseMESH [] = .error ParseErr.noneRecord ∧ countSentinels [] = 0 := by
  decide

/-- Witness for `parser_record_count` at a concrete two-record file. -/
theorem parser_record_count_witness :
    ([{ record := [("MH", ["Water"])], record_type := some "D",
        unique_identifier := some "D000001" },
      { record := [("MH", ["Acid"])], record_type := some "D",
        unique_identifier := some "D000002" }] : List MESHRecord).length =
      countSentinels ["*NEWRECORD", "RECTYPE = D", "UI = D000001", "MH = Water",
        "*NEWRECORD", "RECTYPE = D", "UI = D000002", "MH = Acid"] ∧
    1 ≤ countSentinels ["*NEWRECORD", "RECTYPE = D", "UI = D000001", "MH = Water",
        "*NEWRECORD", "RECTYPE = D", "UI = D000002", "MH = Acid"] :=
  parser_record_count (by decide)


/-! ### Abstract-method obligations (`mesh/utils/maybe_chemical.py`) -/

/-- The abstract methods declared by the `MaybeChemical` ABC in
`mesh/utils/maybe_chemical.py`. -/
def maybeChemicalAbstractMethods : List String :=
  ["maybe_chemical", "chemical_name", "compound_id", "set_compound_id",
   "substance_id", "set_substance_id", "smiles", "set_smiles",
   "inchikey", "set_inchikey"]

/-- The methods defined on `MESHDescriptor` in
`mesh/descriptors_reader.py`. -/
def meshDescriptorMethods : List String :=
  ["__init__", "__repr__", "mesh_dag_numbers", "has_mesh_dag_numbers",
   "chemical_name", "maybe_chemical", "compound_id", "set_compound_id",
   "substance_id", "set_substance_id", "smiles", "set_smiles", "inchikey",
   "inchi", "set_inchi_and_inchikey", "unique_identifier", "name",
   "into_dict"]

/-- The methods defined on `MESHChemical` in `mesh/chemicals_reader.py`. -/
def meshChemicalMethods : List String :=
  ["__init__", "chemical_name", "maybe_chemical", "compound_id",
   "set_compound_id", "substance_id", "set_substance_id", "smiles",
   "set_smiles", "inchikey", "inchi", "set_inchi_and_inchikey",
   "descriptors", "pharmacological_actions", "__repr__",
   "unique_identifier", "name", "into_dict"]

/-- Modelled from Python's `abc` module semantics (standard-library
behavior, not repository code): instantiating a subclass of an ABC raises
`TypeError` exactly when some abstract method of the base is not
overridden by the subclass. -/
def instantiationRaisesTypeError (abstractMethods definedMethods : List String) : Bool :=
  abstractMethods.any (fun m => !(definedMethods.contains m))

/-! ### Extraction error taxonomy -/

/-- Failure modes of the entity extractors
(`mesh/descriptors_reader.py`, `mesh/chemicals_reader.py`). -/
inductive ExtractErr where
  /-- `assert record.record_type == ...` failed (or the record type was
  never set). -/
  | wrongRecordType
  /-- `record[key]`: `assert key in self._record` failed. -/
  | missingKey
  /-- `record[key][0]` on an empty value list (`IndexError`). -/
  | emptyValues
  /-- `tree_number[0]` on an empty string (`IndexError`). -/
  | indexError
  /-- `record.unique_identifier` property assert on an unset
  identifier. -/
  | noUid
  /-- `raise ValueError(f"Invalid heading: {heading}")` in
  `MESHChemicalsReader.__iter__`. -/
  | invalidHeading (heading : String)
deriving Repr, DecidableEq

/-! ### Descriptor extraction (`mesh/descriptors_reader.py`) -/

/-- A `MESHDescriptor`: name, identifier, retained hierarchy paths (each
already split on `.`), and the chemistry fields that start unset. -/
structure MESHDescriptor where
  name : String
  unique_identifier : String
  mesh_dag_numbers : List (List String)
  compound_id : Option Int := none
  substance_id : Option Int := none
  smiles : Option String := none
  inchi : Option String := none
  inchikey : Option String := none
deriving Repr, DecidableEq

/-- `MESHDescriptor.has_mesh_dag_numbers`. -/
def MESHDescriptor.has_mesh_dag_numbers (d : MESHDescriptor) : Bool :=
  !d.mesh_dag_numbers.isEmpty

/-- The filtering list comprehension of `MESHDescriptorsReader.__iter__`:
keep `tree_number.split(".")` for every `MN` value whose first character
is an allowed root letter and whose first dotted segment is an allowed
subtree code; indexing `tree_number[0]` on an empty value raises. -/
def filterMN (roots allowed : List String) : List String → Except ExtractErr (List (List String))
  | [] => .ok []
  | tn :: rest =>
    if strIsEmpty tn then .error .indexError
    else if pyTake1 tn ∈ roots ∧ (pySplit '.' tn).headD "" ∈ allowed then
      (filterMN roots allowed rest).map (fun others => pySplit '.' tn :: others)
    else filterMN roots allowed rest

/-- The body of `MESHDescriptorsReader.__iter__` for one raw record:
assert the record type, read and normalize the first `MH` value, filter
the `MN` values, and yield the descriptor unless it has no retained
paths (`continue`). -/
def descriptorOfRecord (normalize : String → String) (roots allowed : List String)
    (r : MESHRecord) : Except ExtractErr (Option MESHDescriptor) :=
  if r.record_type ≠ some "D" then .error .wrongRecordType
  else
    match r.getVals "MH" with
    | none => .error .missingKey
    | some [] => .error .emptyValues
    | some (mh :: _) =>
      match filterMN roots allowed ((r.getVals "MN").getD []) with
      | .error e => .error e
      | .ok paths =>
        match r.unique_identifier with
        | none => .error .noUid
        | some uid =>
          let descriptor : MESHDescriptor :=
            { name := normalize mh, unique_identifier := uid, mesh_dag_numbers := paths }
          if !descriptor.has_mesh_dag_numbers then .ok none
          else .ok (some descriptor)

/-! ### Chemical extraction (`mesh/chemicals_reader.py`) -/

/-- A `MESHChemical`: name, identifier, pharmacological-action
identifiers, heading-derived descriptor identifiers, and the chemistry
fields that start unset. -/
structure MESHChemical where
  name : String
  unique_identifier : String
  pharmacological_actions : List String
  descriptors : List String
  compound_id : Option Int := none
  substance_id : Option Int := none
  smiles : Option String := none
  inchikey : Option String := none
  inchi : Option String := none
deriving Repr, DecidableEq

/-- Tokenization of one `HM` heading string: split on `/`, truncate each
piece at its first `-`, strip leading and trailing spaces and `*`. -/
def headingTokens (headings : String) : List String :=
  (pySplit '/' headings).map (fun heading => pyStripSpaceStar ((pySplit '-' heading).headD ""))

/-- The inner heading loop of `MESHChemicalsReader.__iter__` on the
already-tokenized headings: skip `Q`-prefixed tokens, retain
`D`-prefixed tokens in order, raise `ValueError` on anything else. -/
def processTokens : List String → Except ExtractErr (List String)
  | [] => .ok []
  | t :: rest =>
    if pyStartsWith t "Q" then processTokens rest
    else if pyStartsWith t "D" then (processTokens rest).map (fun others => t :: others)
    else .error (.invalidHeading t)

/-- The outer heading loop over all `HM` values. -/
def processHM : List String → Except ExtractErr (List String)
  | [] => .ok []
  | h :: rest =>
    match processTokens (headingTokens h) with
    | .error e => .error e
    | .ok a =>
      match processHM rest with
      | .error e => .error e
      | .ok b => .ok (a ++ b)

/-- The body of `MESHChemicalsReader.__iter__` for one raw record. -/
def chemicalOfRecord (normalize : String → String) (r : MESHRecord) :
    Except ExtractErr MESHChemical :=
  if r.record_type ≠ some "C" then .error .wrongRecordType
  else
    match r.getVals "NM" with
    | none => .error .missingKey
    | some [] => .error .emptyValues
    | some (nm :: _) =>
      let pharmacological_actions :=
        ((r.getVals "PA").getD []).map (fun action => (pySplit '-' action).headD "")
      match processHM ((r.getVals "HM").getD []) with
      | .error e => .error e
      | .ok descriptors =>
        match r.unique_identifier with
        | none => .error .noUid
        | some uid =>
          .ok { name := normalize nm, unique_identifier := uid,
                pharmacological_actions := pharmacological_actions,
                descriptors := descriptors }

/-! ### Enrichers (`mesh/enrichers/*.py`) -/

/-- A Python object as seen by `Enricher.enrich(entry: Any)`: whether it
is an instance of `MaybeChemical` (the `isinstance` check), the value of
its `maybe_chemical()` predicate, its `chemical_name()`, and its mutable
chemistry fields. -/
structure Entity where
  isMaybeChemical : Bool
  maybe_chemical : Bool
  chemical_name : String
  compound_id : Option Int
  substance_id : Option Int
  smiles : Option String
  inchi : Option String
  inchikey : Option String
deriving Repr, DecidableEq

/-- `CompoundIdEnricher.enrich`, parameterized by the two lookup tables
built from `CID-MeSH` and `SID-MeSH`. -/
def CompoundIdEnricher.enrich (compound_id_to_mesh substance_id_to_mesh : String → Option Int)
    (entry : Entity) : Entity :=
  if !entry.isMaybeChemical then entry
  else if !entry.maybe_chemical then entry
  else
    let entry1 :=
      match compound_id_to_mesh entry.chemical_name with
      | some compound_id => { entry with compound_id := some compound_id }
      | none => entry
    match substance_id_to_mesh entry.chemical_name with
    | some substance_id => { entry1 with substance_id := some substance_id }
    | none => entry1

/-- `SMILESEnricher.enrich`, parameterized by the `CID-SMILES` lookup
table. -/
def SMILESEnricher.enrich (compound_id_to_smiles : Int → Option String)
    (entry : Entity) : Entity :=
  if !entry.isMaybeChemical then entry
  else
    match entry.compound_id with
    | none => entry
    | some compound_id =>
      match compound_id_to_smiles compound_id with
      | some s => { entry with smiles := some s }
      | none => entry

/-- `InChIKeyEnricher.enrich`, parameterized by the `CID-InChI-Key`
lookup table. -/
def InChIKeyEnricher.enrich (compound_id_to_inchi : Int → Option (String × String))
    (entry : Entity) : Entity :=
  if !entry.isMaybeChemical then entry
  else
    match entry.compound_id with
    | none => entry
    | some compound_id =>
      match compound_id_to_inchi compound_id with
      | some (inchi, inchikey) => { entry with inchi := some inchi, inchikey := some inchikey }
      | none => entry

/-! ### The DAG builder (`mesh/dataset.py`, `Dataset.build`) -/

/-- Failure modes of the two `assert`s in the hierarchy-edge pass of
`Dataset.build`. -/
inductive ConsistencyErr where
  /-- `assert tree_number in mesh_dag_numbers` failed. -/
  | treeNumberNotFound (tree_number : String)
  /-- `assert destination != descriptor.unique_identifier` failed. -/
  | cycleDetected (child parent : String)
deriving Repr, DecidableEq

/-- The membership-edge loop body for one chemical: append
`(chemical, identifier)` for every heading descriptor and every
pharmacological action present in the retained descriptor identifier
set. -/
def chemicalEdges (descriptors_unique_ids : List String) (c : MESHChemical) :
    List (String × String) :=
  c.descriptors.foldl
    (fun acc did =>
      if did ∈ descriptors_unique_ids then acc ++ [(c.unique_identifier, did)] else acc) []
  ++ c.pharmacological_actions.foldl
    (fun acc pid =>
      if pid ∈ descriptors_unique_ids then acc ++ [(c.unique_identifier, pid)] else acc) []

/-- The full membership-edge pass of `Dataset.build`: edges over all
chemicals, against the set of retained descriptor identifiers. -/
def chemicalsToDescriptors (descriptors : List MESHDescriptor)
    (chemicals : List MESHChemical) : List (String × String) :=
  chemicals.foldl
    (fun acc c =>
      acc ++ chemicalEdges (descriptors.map (fun d => d.unique_identifier)) c) []

/-- The `mesh_dag_numbers` lookup of `Dataset.build`: dotted path string
to owning descriptor identifier, over every retained path of every
descriptor; a later assignment overwrites an earlier one, as for a Python
dict. -/
def meshDagNumbersLookup (descriptors : List MESHDescriptor) : String → Option String :=
  descriptors.foldl
    (fun acc d =>
      d.mesh_dag_numbers.foldl
        (fun acc2 tn => fun key =>
          if key = joinSep "." tn then some d.unique_identifier else acc2 key)
        acc)
    (fun _ => none)

/-- The inner hierarchy-edge loop of `Dataset.build` for one descriptor:
walk its tree numbers, skip roots (length 1), resolve the truncated
dotted path, de-duplicate parents, detect self-loops, append edges. -/
def descLoop (lookup : String → Option String) (uid : String) :
    List (List String) → List String → List (String × String) →
    Except ConsistencyErr (List (String × String))
  | [], _, edges => .ok edges
  | tn :: rest, parents, edges =>
    if tn.length = 1 then descLoop lookup uid rest parents edges
    else
      match lookup (joinSep "." tn.dropLast) with
      | none => .error (.treeNumberNotFound (joinSep "." tn.dropLast))
      | some destination =>
        if destination ∈ parents then descLoop lookup uid rest parents edges
        else
          if destination = uid then .error (.cycleDetected uid destination)
          else descLoop lookup uid rest (destination :: parents) (edges ++ [(uid, destination)])

/-- The outer hierarchy-edge loop of `Dataset.build` over all
descriptors. -/
def dagLoop (lookup : String → Option String) :
    List MESHDescriptor → List (String × String) →
    Except ConsistencyErr (List (String × String))
  | [], edges => .ok edges
  | d :: rest, edges =>
    match descLoop lookup d.unique_identifier d.mesh_dag_numbers [] [] with
    | .error e => .error e
    | .ok es => dagLoop lookup rest (edges ++ es)

/-- The hierarchy-edge pass of `Dataset.build`: the `(child, parent)`
rows of the `mesh_dag` table, or the first assertion failure. -/
def meshDag (descriptors : List MESHDescriptor) :
    Except ConsistencyErr (List (String × String)) :=
  dagLoop (meshDagNumbersLookup descriptors) descriptors []


/-! ### Claim C3 -/

/-- Claim C3: both `MESHDescriptor` and `MESHChemical` inherit the
abstract method `set_inchikey` from the `MaybeChemical` ABC without
implementing it (each defines `set_inchi_and_inchikey` instead), so under
Python's abc semantics every attempt to construct either class raises
`TypeError` — and hence the descriptor and chemical extractors cannot
yield any entity. -/
theorem descriptor_and_chemical_instantiation_raises :
    instantiationRaisesTypeError maybeChemicalAbstractMethods meshDescriptorMethods = true
    ∧ instantiationRaisesTypeError maybeChemicalAbstractMethods meshChemicalMethods = true
    ∧ meshDescriptorMethods.contains "set_inchikey" = false
    ∧ meshChemicalMethods.contains "set_inchikey" = false
    ∧ meshDescriptorMethods.contains "set_inchi_and_inchikey" = true
    ∧ meshChemicalMethods.contains "set_inchi_and_inchikey" = true := by
  decide

/-! ### Claim C7 -/

theorem filterMN_sound {roots allowed : List String} :
    ∀ {vals : List String} {paths : List (List String)},
    filterMN roots allowed vals = .ok paths →
    ∀ p ∈ paths, ∃ s ∈ vals, p = pySplit '.' s ∧
      pyTake1 s ∈ roots ∧ (pySplit '.' s).headD "" ∈ allowed
  | [], paths, h => by
    simp only [filterMN] at h
    injection h with h
    subst h
    intro p hp
    exact absurd hp (by simp)
  | tn :: rest, paths, h => by
    simp only [filterMN] at h
    split at h
    · exact absurd h (by simp)
    · split at h
      · rename_i hempty hkeep
        cases hrec : filterMN roots allowed rest with
        | error e => rw [hrec] at h; exact absurd h (by simp [Except.map])
        | ok others =>
          rw [hrec] at h
          simp only [Except.map] at h
          injection h with h
          subst h
          intro p hp
          rcases List.mem_cons.mp hp with hp | hp
          · exact ⟨tn, by simp, hp, hkeep.1, hkeep.2⟩
          · obtain ⟨s, hs, hrest⟩ := filterMN_sound hrec p hp
            exact ⟨s, by simp [hs], hrest⟩
      · intro p hp
        obtain ⟨s, hs, hrest⟩ := filterMN_sound h p hp
        exact ⟨s, by simp [hs], hrest⟩

theorem filterMN_all_fail {roots allowed : List String} :
    ∀ {vals : List String},
    (∀ s ∈ vals, ¬(pyTake1 s ∈ roots ∧ (pySplit '.' s).headD "" ∈ allowed)) →
    filterMN roots allowed vals = .ok [] ∨ ∃ e, filterMN roots allowed vals = .error e
  | [], _ => by simp [filterMN]
  | tn :: rest, hfail => by
    simp only [filterMN]
    split
    · exact Or.inr ⟨_, rfl⟩
    · rw [if_neg (hfail tn (by simp))]
      exact filterMN_all_fail (fun s hs => hfail s (by simp [hs]))

/-- Claim C7: every descriptor yielded by the descriptors extractor has a
nonempty retained path list; each retained path comes from an `MN` value
whose first character is in the root-letter allow-list, equals that value
split on `.`, and has its first segment in the subtree allow-list; and a
record all of whose `MN` values fail the filter is never yielded. -/
theorem descriptor_extraction_filter :
    (∀ (normalize : String → String) (roots allowed : List String)
       (r : MESHRecord) (d : MESHDescriptor),
      descriptorOfRecord normalize roots allowed r = .ok (some d) →
      d.mesh_dag_numbers ≠ [] ∧
      (∀ p ∈ d.mesh_dag_numbers, ∃ s ∈ (r.getVals "MN").getD [],
        p = pySplit '.' s ∧ pyTake1 s ∈ roots ∧ (pySplit '.' s).headD "" ∈ allowed) ∧
      (∀ p ∈ d.mesh_dag_numbers, p.headD "" ∈ allowed))
    ∧ (∀ (normalize : String → String) (roots allowed : List String) (r : MESHRecord),
        (∀ s ∈ (r.getVals "MN").getD [],
          ¬(pyTake1 s ∈ roots ∧ (pySplit '.' s).headD "" ∈ allowed)) →
        ∀ d, descriptorOfRecord normalize roots allowed r ≠ .ok (some d)) := by
  constructor
  · intro normalize roots allowed r d h
    simp only [descriptorOfRecord] at h
    split at h
    · exact absurd h (by simp)
    · split at h
      · exact absurd h (by simp)
      · exact absurd h (by simp)
      · split at h
        · exact absurd h (by simp)
        · rename_i paths hpaths
          split at h
          · exact absurd h (by simp)
          · split at h
            · exact absurd h (by simp)
            · rename_i hnonempty
              injection h with h
              injection h with h
              subst h
              simp only [MESHDescriptor.has_mesh_dag_numbers, Bool.not_eq_true',
                Bool.not_eq_false] at hnonempty
              refine ⟨by simpa using hnonempty, filterMN_sound hpaths, ?_⟩
              intro p hp
              obtain ⟨s, _, hps, _, hseg⟩ := filterMN_sound hpaths p hp
              rw [hps]
              exact hseg
  · intro normalize roots allowed r hfail d h
    simp only [descriptorOfRecord] at h
    split at h
    · exact absurd h (by simp)
    · split at h
      · exact absurd h (by simp)
      · exact absurd h (by simp)
      · split at h
        · exact absurd h (by simp)
        · rename_i paths hpaths
          rcases filterMN_all_fail hfail with hok | ⟨e, herr⟩
          · rw [hok] at hpaths
            injection hpaths with hpaths
            subst hpaths
            split at h
            · exact absurd h (by simp)
            · split at h
              · exact absurd h (by simp)
              · rename_i hnonempty
                simp [MESHDescriptor.has_mesh_dag_numbers] at hnonempty
          · rw [herr] at hpaths
            exact absurd hpaths (by simp)


/-! ### Claim C8 -/

theorem startsWithQ_not_D {t : String} (h : pyStartsWith t "Q" = true) :
    pyStartsWith t "D" = false := by
  obtain ⟨data⟩ := t
  cases data with
  | nil => simp [pyStartsWith, List.isPrefixOf] at h
  | cons c cs =>
    simp only [pyStartsWith, List.isPrefixOf, Bool.and_eq_true, beq_iff_eq] at h ⊢
    simp at h
    subst h
    decide

theorem processTokens_ok :
    ∀ {ts : List String},
    (∀ t ∈ ts, pyStartsWith t "Q" = true ∨ pyStartsWith t "D" = true) →
    processTokens ts = .ok (ts.filter (fun t => pyStartsWith t "D"))
  | [], _ => by simp [processTokens]
  | t :: rest, h => by
    have hrest := processTokens_ok
      (fun s (hs : s ∈ rest) => h s (List.mem_cons.mpr (Or.inr hs)))
    by_cases hq : pyStartsWith t "Q" = true
    · simp [processTokens, hq, startsWithQ_not_D hq, hrest]
    · rcases h t (by simp) with hq' | hd
      · exact absurd hq' hq
      · simp [processTokens, hq, hd, hrest, Except.map]

theorem processTokens_error :
    ∀ {ts : List String} {t : String}, t ∈ ts →
    pyStartsWith t "Q" = false → pyStartsWith t "D" = false →
    ∃ e, processTokens ts = .error e
  | t0 :: rest, t, ht, hq, hd => by
    rcases List.mem_cons.mp ht with h0 | h0
    · subst h0
      simp [processTokens, hq, hd]
    · by_cases hq0 : pyStartsWith t0 "Q" = true
      · obtain ⟨e, he⟩ := processTokens_error h0 hq hd
        exact ⟨e, by simp [processTokens, hq0, he]⟩
      · by_cases hd0 : pyStartsWith t0 "D" = true
        · obtain ⟨e, he⟩ := processTokens_error h0 hq hd
          exact ⟨e, by simp [processTokens, hq0, hd0, he, Except.map]⟩
        · exact ⟨.invalidHeading t0, by simp [processTokens, hq0, hd0]⟩

theorem processHM_ok :
    ∀ {hms : List String},
    (∀ t ∈ hms.flatMap headingTokens, pyStartsWith t "Q" = true ∨ pyStartsWith t "D" = true) →
    processHM hms = .ok ((hms.flatMap headingTokens).filter (fun t => pyStartsWith t "D"))
  | [], _ => by simp [processHM]
  | h0 :: rest, h => by
    have h1 := processTokens_ok
      (fun t (ht : t ∈ headingTokens h0) =>
        h t (by rw [List.flatMap_cons]; exact List.mem_append_left _ ht))
    have h2 := processHM_ok
      (fun t (ht : t ∈ rest.flatMap headingTokens) =>
        h t (by rw [List.flatMap_cons]; exact List.mem_append_right _ ht))
    simp [processHM, h1, h2, List.filter_append]

theorem processHM_error :
    ∀ {hms : List String} {t : String}, t ∈ hms.flatMap headingTokens →
    pyStartsWith t "Q" = false → pyStartsWith t "D" = false →
    ∃ e, processHM hms = .error e
  | h0 :: rest, t, ht, hq, hd => by
    rcases List.mem_flatMap.mp ht with ⟨h1, hh1, ht1⟩
    rcases List.mem_cons.mp hh1 with h2 | h2
    · subst h2
      obtain ⟨e, he⟩ := processTokens_error ht1 hq hd
      exact ⟨e, by simp [processHM, he]⟩
    · cases hp : processTokens (headingTokens h0) with
      | error e => exact ⟨e, by simp [processHM, hp]⟩
      | ok a =>
        obtain ⟨e, he⟩ := processHM_error (List.mem_flatMap.mpr ⟨h1, h2, ht1⟩) hq hd
        exact ⟨e, by simp [processHM, hp, he]⟩

/-- Claim C8: each heading value is tokenized by splitting on `/`,
truncating each piece at its first `-` and stripping leading/trailing `*`
and spaces (`headingTokens`); when every token starts with `Q` or `D`,
the heading pass returns exactly the `D`-prefixed tokens in order; a token
starting with neither (including the empty token) makes it raise; and the
descriptor list of every extracted chemical is exactly the heading pass's
output. -/
theorem chemical_heading_processing :
    (∀ hms : List String,
      (∀ t ∈ hms.flatMap headingTokens,
        pyStartsWith t "Q" = true ∨ pyStartsWith t "D" = true) →
      processHM hms = .ok ((hms.flatMap headingTokens).filter (fun t => pyStartsWith t "D")))
    ∧ (∀ (hms : List String) (t : String), t ∈ hms.flatMap headingTokens →
        pyStartsWith t "Q" = false → pyStartsWith t "D" = false →
        ∃ e, processHM hms = .error e)
    ∧ (∀ (normalize : String → String) (r : MESHRecord) (c : MESHChemical),
        chemicalOfRecord normalize r = .ok c →
        processHM ((r.getVals "HM").getD []) = .ok c.descriptors) := by
  refine ⟨fun hms h => processHM_ok h, fun hms t ht hq hd => processHM_error ht hq hd, ?_⟩
  intro normalize r c h
  simp only [chemicalOfRecord] at h
  split at h
  · exact absurd h (by simp)
  · split at h
    · exact absurd h (by simp)
    · exact absurd h (by simp)
    · split at h
      · exact absurd h (by simp)
      · rename_i ds hds
        split at h
        · exact absurd h (by simp)
        · injection h with h
          subst h
          exact hds

/-- Witness for `chemical_heading_processing` on the specification's
worked example heading. -/
theorem chemical_heading_processing_witness :
    processHM ["D000001/Q000005-AB"] =
      .ok (((["D000001/Q000005-AB"] : List String).flatMap headingTokens).filter
        (fun t => pyStartsWith t "D")) :=
  chemical_heading_processing.1 ["D000001/Q000005-AB"] (by decide)


/-- Witness for `descriptor_extraction_filter` at a concrete record. -/
theorem descriptor_extraction_filter_witness :
    ({ name := "Water", unique_identifier := "D000001",
       mesh_dag_numbers := [["D02", "012"]] } : MESHDescriptor).mesh_dag_numbers ≠ [] :=
  (descriptor_extraction_filter.1 id ["D"] ["D02"]
    { record := [("MH", ["Water"]), ("MN", ["D02.012", "C03.200"])],
      record_type := some "D", unique_identifier := some "D000001" }
    { name := "Water", unique_identifier := "D000001",
      mesh_dag_numbers := [["D02", "012"]] } (by decide)).1

/-! ### Claims C4 and C10 -/

/-- Counterexample to claim C4 as stated: the SMILES enricher is not a
no-op on an entity whose `maybe_chemical()` returns false — it never
consults the predicate; with a set `compound_id` found in the table it
mutates the entity anyway. -/
theorem smiles_enricher_ignores_maybe_chemical :
    SMILESEnricher.enrich (fun compound_id => if compound_id = 5 then some "O" else none)
      { isMaybeChemical := true, maybe_chemical := false, chemical_name := "Water",
        compound_id := some 5, substance_id := none, smiles := none,
        inchi := none, inchikey := none } ≠
      { isMaybeChemical := true, maybe_chemical := false, chemical_name := "Water",
        compound_id := some 5, substance_id := none, smiles := none,
        inchi := none, inchikey := none } := by
  decide

/-- Claim C4 (amended): the compound-id enricher's `enrich` is a no-op
unless the entity is a `MaybeChemical` instance whose `maybe_chemical()`
returns true; the SMILES and InChIKey enrichers' `enrich` is a no-op
unless the entity is a `MaybeChemical` instance whose `compound_id` is
set (they never consult `maybe_chemical()`); in particular every entity
that is not a `MaybeChemical` instance is left unchanged by all three. -/
theorem enrich_noop_conditions
    (compound_id_to_mesh substance_id_to_mesh : String → Option Int)
    (compound_id_to_smiles : Int → Option String)
    (compound_id_to_inchi : Int → Option (String × String)) (e : Entity) :
    (e.isMaybeChemical = false →
      CompoundIdEnricher.enrich compound_id_to_mesh substance_id_to_mesh e = e ∧
      SMILESEnricher.enrich compound_id_to_smiles e = e ∧
      InChIKeyEnricher.enrich compound_id_to_inchi e = e) ∧
    (e.maybe_chemical = false →
      CompoundIdEnricher.enrich compound_id_to_mesh substance_id_to_mesh e = e) ∧
    (e.compound_id = none →
      SMILESEnricher.enrich compound_id_to_smiles e = e ∧
      InChIKeyEnricher.enrich compound_id_to_inchi e = e) := by
  refine ⟨fun h => ?_, fun h => ?_, fun h => ?_⟩
  · simp [CompoundIdEnricher.enrich, SMILESEnricher.enrich, InChIKeyEnricher.enrich, h]
  · by_cases hi : e.isMaybeChemical = true <;>
      simp [CompoundIdEnricher.enrich, h, hi]
  · by_cases hi : e.isMaybeChemical = true <;>
      simp [SMILESEnricher.enrich, InChIKeyEnricher.enrich, h, hi]

/-- Witness for `enrich_noop_conditions`: a non-`MaybeChemical` entity is
untouched by the SMILES enricher. -/
theorem enrich_noop_conditions_witness :
    SMILESEnricher.enrich (fun _ => some "C")
      { isMaybeChemical := false, maybe_chemical := true, chemical_name := "Water",
        compound_id := some 1, substance_id := none, smiles := none,
        inchi := none, inchikey := none } =
      { isMaybeChemical := false, maybe_chemical := true, chemical_name := "Water",
        compound_id := some 1, substance_id := none, smiles := none,
        inchi := none, inchikey := none } :=
  ((enrich_noop_conditions (fun _ => none) (fun _ => none) (fun _ => some "C")
    (fun _ => none)
    { isMaybeChemical := false, maybe_chemical := true, chemical_name := "Water",
      compound_id := some 1, substance_id := none, smiles := none,
      inchi := none, inchikey := none }).1 rfl).2.1

/-- Claim C10: no enricher ever overwrites a set chemistry field with a
null value — each enricher writes only its own target fields and only on
a lookup hit; with an unset `compound_id` the SMILES and InChIKey
enrichers leave the entity entirely unchanged; and running the SMILES
enricher before the compound-id enricher on an entity with no prior
`compound_id` leaves the SMILES field exactly as it was (in particular
unset). -/
theorem enrich_never_overwrites_with_null
    (compound_id_to_mesh substance_id_to_mesh : String → Option Int)
    (compound_id_to_smiles : Int → Option String)
    (compound_id_to_inchi : Int → Option (String × String)) (e : Entity) :
    (((CompoundIdEnricher.enrich compound_id_to_mesh substance_id_to_mesh e).compound_id = none →
        e.compound_id = none) ∧
     ((CompoundIdEnricher.enrich compound_id_to_mesh substance_id_to_mesh e).substance_id = none →
        e.substance_id = none) ∧
     (CompoundIdEnricher.enrich compound_id_to_mesh substance_id_to_mesh e).smiles = e.smiles ∧
     (CompoundIdEnricher.enrich compound_id_to_mesh substance_id_to_mesh e).inchi = e.inchi ∧
     (CompoundIdEnricher.enrich compound_id_to_mesh substance_id_to_mesh e).inchikey = e.inchikey) ∧
    (((SMILESEnricher.enrich compound_id_to_smiles e).smiles = none → e.smiles = none) ∧
     (SMILESEnricher.enrich compound_id_to_smiles e).compound_id = e.compound_id ∧
     (SMILESEnricher.enrich compound_id_to_smiles e).substance_id = e.substance_id ∧
     (SMILESEnricher.enrich compound_id_to_smiles e).inchi = e.inchi ∧
     (SMILESEnricher.enrich compound_id_to_smiles e).inchikey = e.inchikey) ∧
    (((InChIKeyEnricher.enrich compound_id_to_inchi e).inchi = none → e.inchi = none) ∧
     ((InChIKeyEnricher.enrich compound_id_to_inchi e).inchikey = none → e.inchikey = none) ∧
     (InChIKeyEnricher.enrich compound_id_to_inchi e).compound_id = e.compound_id ∧
     (InChIKeyEnricher.enrich compound_id_to_inchi e).substance_id = e.substance_id ∧
     (InChIKeyEnricher.enrich compound_id_to_inchi e).smiles = e.smiles) ∧
    (e.compound_id = none →
      (CompoundIdEnricher.enrich compound_id_to_mesh substance_id_to_mesh
        (SMILESEnricher.enrich compound_id_to_smiles e)).smiles = e.smiles) := by
  refine ⟨?_, ?_, ?_, ?_⟩
  · unfold CompoundIdEnricher.enrich
    by_cases hi : e.isMaybeChemical <;>
      by_cases hm : e.maybe_chemical <;>
        cases hc : compound_id_to_mesh e.chemical_name <;>
          cases hs : substance_id_to_mesh e.chemical_name <;>
            simp [hi, hm, hc, hs]
  · unfold SMILESEnricher.enrich
    by_cases hi : e.isMaybeChemical <;> cases hc : e.compound_id
    · simp [hi, hc]
    · rename_i cid
      cases hs : compound_id_to_smiles cid <;> simp [hi, hc, hs]
    · simp [hi, hc]
    · rename_i cid
      cases hs : compound_id_to_smiles cid <;> simp [hi, hc, hs]
  · unfold InChIKeyEnricher.enrich
    by_cases hi : e.isMaybeChemical <;> cases hc : e.compound_id
    · simp [hi, hc]
    · rename_i cid
      cases hs : compound_id_to_inchi cid <;> simp [hi, hc, hs]
    · simp [hi, hc]
    · rename_i cid
      cases hs : compound_id_to_inchi cid <;> simp [hi, hc, hs]
  · intro h
    have hsm : SMILESEnricher.enrich compound_id_to_smiles e = e := by
      simp [SMILESEnricher.enrich, h]
    rw [hsm]
    unfold CompoundIdEnricher.enrich
    by_cases hi : e.isMaybeChemical <;>
      by_cases hm : e.maybe_chemical <;>
        cases hc : compound_id_to_mesh e.chemical_name <;>
          cases hs : substance_id_to_mesh e.chemical_name <;>
            simp [hi, hm, hc, hs]

/-- Witness for `enrich_never_overwrites_with_null`: with no prior
`compound_id`, the SMILES-then-compound-id order leaves SMILES unset even
though both tables are total. -/
theorem enrich_never_overwrites_with_null_witness :
    (CompoundIdEnricher.enrich (fun _ => some 962) (fun _ => some 7)
      (SMILESEnricher.enrich (fun _ => some "O")
        { isMaybeChemical := true, maybe_chemical := true, chemical_name := "Water",
          compound_id := none, substance_id := none, smiles := none,
          inchi := none, inchikey := none })).smiles =
    ({ isMaybeChemical := true, maybe_chemical := true, chemical_name := "Water",
       compound_id := none, substance_id := none, smiles := none,
       inchi := none, inchikey := none } : Entity).smiles :=
  (enrich_never_overwrites_with_null (fun _ => some 962) (fun _ => some 7)
    (fun _ => some "O") (fun _ => none)
    { isMaybeChemical := true, maybe_chemical := true, chemical_name := "Water",
      compound_id := none, substance_id := none, smiles := none,
      inchi := none, inchikey := none }).2.2.2 rfl


/-! ### Claim C9 -/

theorem foldl_append_edges (u : String) (ids : List String) :
    ∀ (l : List String) (acc : List (String × String)),
    l.foldl (fun acc x => if x ∈ ids then acc ++ [(u, x)] else acc) acc =
      acc ++ (l.filter (fun x => x ∈ ids)).map (fun x => (u, x))
  | [], acc => by simp
  | x :: rest, acc => by
    by_cases hx : x ∈ ids <;>
      simp [List.filter_cons, hx, foldl_append_edges u ids rest]

theorem mem_chemicalEdges {ids : List String} {c : MESHChemical} {u x : String} :
    (u, x) ∈ chemicalEdges ids c ↔
      u = c.unique_identifier ∧
      (x ∈ c.descriptors ∨ x ∈ c.pharmacological_actions) ∧ x ∈ ids := by
  simp only [chemicalEdges, foldl_append_edges, List.nil_append, List.mem_append,
    List.mem_map, List.mem_filter, Prod.mk.injEq, decide_eq_true_eq]
  constructor
  · rintro (⟨y, ⟨hy, hin⟩, hu, hx⟩ | ⟨y, ⟨hy, hin⟩, hu, hx⟩)
    · subst hx; exact ⟨hu.symm, Or.inl hy, hin⟩
    · subst hx; exact ⟨hu.symm, Or.inr hy, hin⟩
  · rintro ⟨hu, hy | hy, hin⟩
    · exact Or.inl ⟨x, ⟨hy, hin⟩, hu.symm, rfl⟩
    · exact Or.inr ⟨x, ⟨hy, hin⟩, hu.symm, rfl⟩

theorem foldl_append_flatMap (f : MESHChemical → List (String × String)) :
    ∀ (l : List MESHChemical) (acc : List (String × String)),
    l.foldl (fun acc c => acc ++ f c) acc = acc ++ l.flatMap f
  | [], acc => by simp
  | c :: rest, acc => by
    simp [foldl_append_flatMap f rest, List.flatMap_cons]

/-- Claim C9: for every chemical in the build and every identifier, a
membership edge (chemical → identifier) is emitted iff the identifier
occurs in the chemical's heading-descriptor list or its
pharmacological-action list and is one of the retained descriptors'
unique identifiers; identifiers outside that set are silently dropped
(the membership pass itself never fails). -/
theorem membership_edges_iff (descriptors : List MESHDescriptor)
    (chemicals : List MESHChemical) (c : MESHChemical) (x : String)
    (hc : c ∈ chemicals)
    (hnodup : (chemicals.map (fun ch => ch.unique_identifier)).Nodup) :
    (c.unique_identifier, x) ∈ chemicalsToDescriptors descriptors chemicals ↔
      ((x ∈ c.descriptors ∨ x ∈ c.pharmacological_actions) ∧
        x ∈ descriptors.map (fun d => d.unique_identifier)) := by
  unfold chemicalsToDescriptors
  rw [foldl_append_flatMap, List.nil_append, List.mem_flatMap]
  constructor
  · rintro ⟨c', hc', hmem⟩
    obtain ⟨hu, hor, hin⟩ := mem_chemicalEdges.mp hmem
    have : c = c' := List.inj_on_of_nodup_map hnodup hc hc' hu
    subst this
    exact ⟨hor, hin⟩
  · rintro ⟨hor, hin⟩
    exact ⟨c, hc, mem_chemicalEdges.mpr ⟨rfl, hor, hin⟩⟩

/-- Witness for `membership_edges_iff` on the specification's worked
example: the chemical maps to `D000001` and the qualifier token has been
dropped upstream. -/
theorem membership_edges_iff_witness :
    (("C000001", "D000001") ∈ chemicalsToDescriptors
      [{ name := "Water", unique_identifier := "D000001",
         mesh_dag_numbers := [["D02", "012"]] }]
      [{ name := "Hydrate", unique_identifier := "C000001",
         pharmacological_actions := [], descriptors := ["D000001", "D999999"] }]) ↔
      ((("D000001" : String) ∈ (["D000001", "D999999"] : List String) ∨
          ("D000001" : String) ∈ ([] : List String)) ∧
        ("D000001" : String) ∈
          ([{ name := "Water", unique_identifier := "D000001",
              mesh_dag_numbers := [["D02", "012"]] }] : List MESHDescriptor).map
            (fun d => d.unique_identifier)) :=
  membership_edges_iff
    [{ name := "Water", unique_identifier := "D000001",
       mesh_dag_numbers := [["D02", "012"]] }]
    [{ name := "Hydrate", unique_identifier := "C000001",
       pharmacological_actions := [], descriptors := ["D000001", "D999999"] }]
    { name := "Hydrate", unique_identifier := "C000001",
      pharmacological_actions := [], descriptors := ["D000001", "D999999"] }
    "D000001" (by decide) (by decide)


/-! ### Hierarchy-edge lemmas (claims C5 and C6) -/

theorem descLoop_shape {lookup : String → Option String} {uid : String} :
    ∀ {paths : List (List String)} {parents : List String}
      {edges es : List (String × String)},
    descLoop lookup uid paths parents edges = .ok es →
    (∀ e ∈ edges, e.1 = uid ∧ e.2 ≠ uid) →
    ∀ e ∈ es, e.1 = uid ∧ e.2 ≠ uid
  | [], parents, edges, es, h, hinv => by
    simp only [descLoop] at h
    injection h with h
    subst h
    exact hinv
  | tn :: rest, parents, edges, es, h, hinv => by
    by_cases hlen : tn.length = 1
    · simp only [descLoop, if_pos hlen] at h
      exact descLoop_shape h hinv
    · cases hdest : lookup (joinSep "." tn.dropLast) with
      | none =>
        simp only [descLoop, if_neg hlen, hdest] at h
        exact absurd h (by simp)
      | some destination =>
        simp only [descLoop, if_neg hlen, hdest] at h
        by_cases hmem : destination ∈ parents
        · rw [if_pos hmem] at h
          exact descLoop_shape h hinv
        · rw [if_neg hmem] at h
          by_cases hd : destination = uid
          · rw [if_pos hd] at h
            exact absurd h (by simp)
          · rw [if_neg hd] at h
            refine descLoop_shape h ?_
            intro e he
            rcases List.mem_append.mp he with he | he
            · exact hinv e he
            · simp at he
              subst he
              exact ⟨rfl, hd⟩

theorem descLoop_mem {lookup : String → Option String} {uid : String} :
    ∀ {paths : List (List String)} {parents : List String}
      {edges es : List (String × String)},
    descLoop lookup uid paths parents edges = .ok es →
    (∀ q, (uid, q) ∈ edges ↔ q ∈ parents) →
    ∀ p, ((uid, p) ∈ es ↔ p ∈ parents ∨
      ∃ tn ∈ paths, tn.length ≠ 1 ∧ lookup (joinSep "." tn.dropLast) = some p)
  | [], parents, edges, es, h, hinv => by
    simp only [descLoop] at h
    injection h with h
    subst h
    intro p
    simp [hinv p]
  | tn :: rest, parents, edges, es, h, hinv => by
    by_cases hlen : tn.length = 1
    · simp only [descLoop, if_pos hlen] at h
      intro p
      rw [descLoop_mem h hinv p]
      constructor
      · rintro (hp | ⟨tn', htn', hrest⟩)
        · exact Or.inl hp
        · exact Or.inr ⟨tn', List.mem_cons.mpr (Or.inr htn'), hrest⟩
      · rintro (hp | ⟨tn', htn', hlen', hres⟩)
        · exact Or.inl hp
        · rcases List.mem_cons.mp htn' with h0 | h0
          · subst h0; exact absurd hlen hlen'
          · exact Or.inr ⟨tn', h0, hlen', hres⟩
    · cases hdest : lookup (joinSep "." tn.dropLast) with
      | none =>
        simp only [descLoop, if_neg hlen, hdest] at h
        exact absurd h (by simp)
      | some destination =>
        simp only [descLoop, if_neg hlen, hdest] at h
        by_cases hmem : destination ∈ parents
        · rw [if_pos hmem] at h
          intro p
          rw [descLoop_mem h hinv p]
          constructor
          · rintro (hp | ⟨tn', htn', hrest⟩)
            · exact Or.inl hp
            · exact Or.inr ⟨tn', List.mem_cons.mpr (Or.inr htn'), hrest⟩
          · rintro (hp | ⟨tn', htn', hlen', hres⟩)
            · exact Or.inl hp
            · rcases List.mem_cons.mp htn' with h0 | h0
              · subst h0
                rw [hdest] at hres
                injection hres with hres
                subst hres
                exact Or.inl hmem
              · exact Or.inr ⟨tn', h0, hlen', hres⟩
        · rw [if_neg hmem] at h
          by_cases hd : destination = uid
          · rw [if_pos hd] at h
            exact absurd h (by simp)
          · rw [if_neg hd] at h
            intro p
            have hinv' : ∀ q, (uid, q) ∈ edges ++ [(uid, destination)] ↔
                q ∈ destination :: parents := by
              intro q
              simp [hinv q]
              constructor
              · rintro (hq | hq)
                · exact Or.inr hq
                · exact Or.inl hq
              · rintro (hq | hq)
                · exact Or.inr hq
                · exact Or.inl hq
            rw [descLoop_mem h hinv' p]
            constructor
            · rintro (hp | ⟨tn', htn', hrest⟩)
              · rcases List.mem_cons.mp hp with h0 | h0
                · subst h0
                  exact Or.inr ⟨tn, List.mem_cons.mpr (Or.inl rfl), hlen, hdest⟩
                · exact Or.inl h0
              · exact Or.inr ⟨tn', List.mem_cons.mpr (Or.inr htn'), hrest⟩
            · rintro (hp | ⟨tn', htn', hlen', hres⟩)
              · exact Or.inl (List.mem_cons.mpr (Or.inr hp))
              · rcases List.mem_cons.mp htn' with h0 | h0
                · subst h0
                  rw [hdest] at hres
                  injection hres with hres
                  subst hres
                  exact Or.inl (List.mem_cons.mpr (Or.inl rfl))
                · exact Or.inr ⟨tn', h0, hlen', hres⟩

theorem descLoop_nodup {lookup : String → Option String} {uid : String} :
    ∀ {paths : List (List String)} {parents : List String}
      {edges es : List (String × String)},
    descLoop lookup uid paths parents edges = .ok es →
    edges.Nodup →
    (∀ q, (uid, q) ∈ edges ↔ q ∈ parents) →
    es.Nodup
  | [], parents, edges, es, h, hnd, hinv => by
    simp only [descLoop] at h
    injection h with h
    subst h
    exact hnd
  | tn :: rest, parents, edges, es, h, hnd, hinv => by
    by_cases hlen : tn.length = 1
    · simp only [descLoop, if_pos hlen] at h
      exact descLoop_nodup h hnd hinv
    · cases hdest : lookup (joinSep "." tn.dropLast) with
      | none =>
        simp only [descLoop, if_neg hlen, hdest] at h
        exact absurd h (by simp)
      | some destination =>
        simp only [descLoop, if_neg hlen, hdest] at h
        by_cases hmem : destination ∈ parents
        · rw [if_pos hmem] at h
          exact descLoop_nodup h hnd hinv
        · rw [if_neg hmem] at h
          by_cases hd : destination = uid
          · rw [if_pos hd] at h
            exact absurd h (by simp)
          · rw [if_neg hd] at h
            refine descLoop_nodup h ?_ ?_
            · refine List.Nodup.append hnd (by simp) ?_
              intro x hx hx'
              simp at hx'
              subst hx'
              exact hmem ((hinv destination).mp hx)
            · intro q
              simp [hinv q]
              constructor
              · rintro (hq | hq)
                · exact Or.inr hq
                · exact Or.inl hq
              · rintro (hq | hq)
                · exact Or.inr hq
                · exact Or.inl hq

theorem descLoop_self_error {lookup : String → Option String} {uid : String} :
    ∀ {paths : List (List String)} {parents : List String}
      {edges : List (String × String)},
    uid ∉ parents →
    (∃ tn ∈ paths, tn.length ≠ 1 ∧ lookup (joinSep "." tn.dropLast) = some uid) →
    ∃ e, descLoop lookup uid paths parents edges = .error e
  | tn :: rest, parents, edges, hpar, ⟨tn', htn', hlen', hres⟩ => by
    rcases List.mem_cons.mp htn' with h0 | h0
    · subst h0
      simp only [descLoop, if_neg hlen', hres]
      rw [if_neg hpar]
      simp
    · by_cases hlen : tn.length = 1
      · simp only [descLoop, if_pos hlen]
        exact descLoop_self_error hpar ⟨tn', h0, hlen', hres⟩
      · cases hdest : lookup (joinSep "." tn.dropLast) with
        | none =>
          simp only [descLoop, if_neg hlen, hdest]
          exact ⟨_, rfl⟩
        | some destination =>
          simp only [descLoop, if_neg hlen, hdest]
          by_cases hmem : destination ∈ parents
          · rw [if_pos hmem]
            exact descLoop_self_error hpar ⟨tn', h0, hlen', hres⟩
          · rw [if_neg hmem]
            by_cases hd : destination = uid
            · rw [if_pos hd]
              exact ⟨_, rfl⟩
            · rw [if_neg hd]
              refine descLoop_self_error ?_ ⟨tn', h0, hlen', hres⟩
              intro hu
              rcases List.mem_cons.mp hu with hu | hu
              · exact hd hu.symm
              · exact hpar hu

theorem descLoop_miss_error {lookup : String → Option String} {uid : String} :
    ∀ {paths : List (List String)} {parents : List String}
      {edges : List (String × String)},
    (∃ tn ∈ paths, tn.length ≠ 1 ∧ lookup (joinSep "." tn.dropLast) = none) →
    ∃ e, descLoop lookup uid paths parents edges = .error e
  | tn :: rest, parents, edges, ⟨tn', htn', hlen', hres⟩ => by
    rcases List.mem_cons.mp htn' with h0 | h0
    · subst h0
      simp only [descLoop, if_neg hlen', hres]
      exact ⟨_, rfl⟩
    · by_cases hlen : tn.length = 1
      · simp only [descLoop, if_pos hlen]
        exact descLoop_miss_error ⟨tn', h0, hlen', hres⟩
      · cases hdest : lookup (joinSep "." tn.dropLast) with
        | none =>
          simp only [descLoop, if_neg hlen, hdest]
          exact ⟨_, rfl⟩
        | some destination =>
          simp only [descLoop, if_neg hlen, hdest]
          by_cases hmem : destination ∈ parents
          · rw [if_pos hmem]
            exact descLoop_miss_error ⟨tn', h0, hlen', hres⟩
          · rw [if_neg hmem]
            by_cases hd : destination = uid
            · rw [if_pos hd]
              exact ⟨_, rfl⟩
            · rw [if_neg hd]
              exact descLoop_miss_error ⟨tn', h0, hlen', hres⟩


theorem dagLoop_mem {lookup : String → Option String} :
    ∀ {descs : List MESHDescriptor} {acc edges : List (String × String)},
    dagLoop lookup descs acc = .ok edges →
    ∀ x, x ∈ edges ↔ x ∈ acc ∨ ∃ d ∈ descs, ∃ es,
      descLoop lookup d.unique_identifier d.mesh_dag_numbers [] [] = .ok es ∧ x ∈ es
  | [], acc, edges, h => by
    simp only [dagLoop] at h
    injection h with h
    subst h
    intro x
    simp
  | d :: rest, acc, edges, h => by
    simp only [dagLoop] at h
    cases hd : descLoop lookup d.unique_identifier d.mesh_dag_numbers [] [] with
    | error e =>
      rw [hd] at h
      exact absurd h (by simp)
    | ok es0 =>
      rw [hd] at h
      intro x
      rw [dagLoop_mem h x]
      constructor
      · rintro (hx | ⟨d', hd', es, hes, hxes⟩)
        · rcases List.mem_append.mp hx with hx | hx
          · exact Or.inl hx
          · exact Or.inr ⟨d, List.mem_cons.mpr (Or.inl rfl), es0, hd, hx⟩
        · exact Or.inr ⟨d', List.mem_cons.mpr (Or.inr hd'), es, hes, hxes⟩
      · rintro (hx | ⟨d', hd', es, hes, hxes⟩)
        · exact Or.inl (List.mem_append.mpr (Or.inl hx))
        · rcases List.mem_cons.mp hd' with h0 | h0
          · subst h0
            rw [hd] at hes
            injection hes with hes
            subst hes
            exact Or.inl (List.mem_append.mpr (Or.inr hxes))
          · exact Or.inr ⟨d', h0, es, hes, hxes⟩

theorem dagLoop_error {lookup : String → Option String} :
    ∀ {descs : List MESHDescriptor} {acc : List (String × String)}
      {d : MESHDescriptor},
    d ∈ descs →
    (∃ e, descLoop lookup d.unique_identifier d.mesh_dag_numbers [] [] = .error e) →
    ∃ e, dagLoop lookup descs acc = .error e
  | d0 :: rest, acc, d, hd, ⟨e, he⟩ => by
    rcases List.mem_cons.mp hd with h0 | h0
    · subst h0
      exact ⟨e, by simp [dagLoop, he]⟩
    · cases hd0 : descLoop lookup d0.unique_identifier d0.mesh_dag_numbers [] [] with
      | error e0 => exact ⟨e0, by simp [dagLoop, hd0]⟩
      | ok es0 =>
        obtain ⟨e1, he1⟩ :=
          @dagLoop_error lookup rest (acc ++ es0) d h0 ⟨e, he⟩
        exact ⟨e1, by simp [dagLoop, hd0, he1]⟩

theorem dagLoop_all_ok {lookup : String → Option String} :
    ∀ {descs : List MESHDescriptor} {acc edges : List (String × String)},
    dagLoop lookup descs acc = .ok edges →
    ∀ d ∈ descs, ∃ es,
      descLoop lookup d.unique_identifier d.mesh_dag_numbers [] [] = .ok es
  | [], acc, edges, _ => by simp
  | d0 :: rest, acc, edges, h => by
    simp only [dagLoop] at h
    cases hd0 : descLoop lookup d0.unique_identifier d0.mesh_dag_numbers [] [] with
    | error e => rw [hd0] at h; exact absurd h (by simp)
    | ok es0 =>
      rw [hd0] at h
      intro d hd
      rcases List.mem_cons.mp hd with h0 | h0
      · subst h0
        exact ⟨es0, hd0⟩
      · exact dagLoop_all_ok h d h0

theorem dagLoop_edges_nodup {lookup : String → Option String} :
    ∀ {descs : List MESHDescriptor} {acc edges : List (String × String)},
    dagLoop lookup descs acc = .ok edges →
    acc.Nodup →
    (descs.map (fun d => d.unique_identifier)).Nodup →
    (∀ x ∈ acc, x.1 ∉ descs.map (fun d => d.unique_identifier)) →
    edges.Nodup
  | [], acc, edges, h, hacc, _, _ => by
    simp only [dagLoop] at h
    injection h with h
    subst h
    exact hacc
  | d0 :: rest, acc, edges, h, hacc, hmap, hdisj => by
    simp only [dagLoop] at h
    cases hd0 : descLoop lookup d0.unique_identifier d0.mesh_dag_numbers [] [] with
    | error e => rw [hd0] at h; exact absurd h (by simp)
    | ok es0 =>
      rw [hd0] at h
      have hes0shape := descLoop_shape hd0 (by simp)
      have hes0nd : es0.Nodup := descLoop_nodup hd0 (by simp) (by simp)
      simp only [List.map_cons, List.nodup_cons] at hmap
      refine dagLoop_edges_nodup h ?_ hmap.2 ?_
      · refine List.Nodup.append hacc hes0nd ?_
        intro x hx hx'
        have h1 := hdisj x hx
        have h2 := (hes0shape x hx').1
        simp only [List.map_cons, List.mem_cons] at h1
        exact h1 (Or.inl h2)
      · intro x hx
        rcases List.mem_append.mp hx with hx | hx
        · have := hdisj x hx
          simp only [List.map_cons, List.mem_cons] at this
          intro hmem
          exact this (Or.inr hmem)
        · have h2 := (hes0shape x hx).1
          rw [h2]
          exact hmap.1

/-! ### Claims C5 and C6 -/

/-- Claim C5: the hierarchy-edge table contains no edge whose child
equals its parent, and whenever some truncated hierarchy path of a
descriptor resolves back to that descriptor itself, the hierarchy-edge
pass raises (the cycle-detection assert) instead of emitting the edge. -/
theorem mesh_dag_no_self_loops :
    (∀ (descriptors : List MESHDescriptor) (edges : List (String × String)),
      meshDag descriptors = .ok edges → ∀ e ∈ edges, e.1 ≠ e.2)
    ∧ (∀ (descriptors : List MESHDescriptor) (d : MESHDescriptor) (tn : List String),
        d ∈ descriptors → tn ∈ d.mesh_dag_numbers → 2 ≤ tn.length →
        meshDagNumbersLookup descriptors (joinSep "." tn.dropLast) =
          some d.unique_identifier →
        ∃ e, meshDag descriptors = .error e) := by
  constructor
  · intro descriptors edges h e he
    simp only [meshDag] at h
    rcases (dagLoop_mem h e).mp he with hx | ⟨d', _, es, hes, hxes⟩
    · exact absurd hx (by simp)
    · obtain ⟨h1, h2⟩ := descLoop_shape hes (by simp) e hxes
      rw [h1]
      exact fun hc => h2 hc.symm
  · intro descriptors d tn hd htn hlen hres
    simp only [meshDag]
    refine dagLoop_error hd (descLoop_self_error (by simp) ⟨tn, htn, ?_, hres⟩)
    omega

/-- Witness for `mesh_dag_no_self_loops` on a two-descriptor hierarchy. -/
theorem mesh_dag_no_self_loops_witness :
    ("D000002", "D000001").1 ≠ ("D000002", "D000001").2 :=
  mesh_dag_no_self_loops.1
    [{ name := "A", unique_identifier := "D000001", mesh_dag_numbers := [["D02"]] },
     { name := "B", unique_identifier := "D000002",
       mesh_dag_numbers := [["D02", "012"]] }]
    [("D000002", "D000001")] (by decide) ("D000002", "D000001") (by decide)

/-- Claim C6: when the hierarchy-edge pass succeeds, a descriptor has an
edge to parent `p` iff one of its hierarchy paths of length at least 2
truncates (drop the last segment, join with `.`) and resolves through the
lookup built from every retained path of every descriptor to `p`; each
such (descriptor, parent) edge appears at most once; paths of length 1
contribute nothing; and a truncated path that the lookup cannot resolve
makes the pass raise. -/
theorem mesh_dag_edges_characterization :
    (∀ (descriptors : List MESHDescriptor) (edges : List (String × String)),
      meshDag descriptors = .ok edges →
      (∀ d' ∈ descriptors, ∀ tn ∈ d'.mesh_dag_numbers, tn ≠ ([] : List String)) →
      (descriptors.map (fun d' => d'.unique_identifier)).Nodup →
      (∀ d ∈ descriptors, ∀ p : String,
        ((d.unique_identifier, p) ∈ edges) ↔
          ∃ tn ∈ d.mesh_dag_numbers, 2 ≤ tn.length ∧
            meshDagNumbersLookup descriptors (joinSep "." tn.dropLast) = some p) ∧
      edges.Nodup)
    ∧ (∀ (descriptors : List MESHDescriptor) (d : MESHDescriptor) (tn : List String),
        d ∈ descriptors → tn ∈ d.mesh_dag_numbers → 2 ≤ tn.length →
        meshDagNumbersLookup descriptors (joinSep "." tn.dropLast) = none →
        ∃ e, meshDag descriptors = .error e) := by
  constructor
  · intro descriptors edges h hne hnd
    simp only [meshDag] at h
    constructor
    · intro d hd p
      constructor
      · intro hmem
        rcases (dagLoop_mem h _).mp hmem with hx | ⟨d', hd', es, hes, hxes⟩
        · exact absurd hx (by simp)
        · have hshape := (descLoop_shape hes (by simp) _ hxes).1
          have hdd : d = d' := List.inj_on_of_nodup_map hnd hd hd' hshape
          subst hdd
          rcases (descLoop_mem hes (by simp) p).mp hxes with hp | ⟨tn, htn, hlen, hres⟩
          · exact absurd hp (by simp)
          · refine ⟨tn, htn, ?_, hres⟩
            have := hne d hd tn htn
            have : tn.length ≠ 0 := fun hc => this (List.length_eq_zero.mp hc)
            omega
      · rintro ⟨tn, htn, hlen, hres⟩
        obtain ⟨es, hes⟩ := dagLoop_all_ok h d hd
        refine (dagLoop_mem h _).mpr (Or.inr ⟨d, hd, es, hes, ?_⟩)
        refine (descLoop_mem hes (by simp) p).mpr (Or.inr ⟨tn, htn, ?_, hres⟩)
        omega
    · exact dagLoop_edges_nodup h (by simp) hnd (by simp)
  · intro descriptors d tn hd htn hlen hres
    simp only [meshDag]
    refine dagLoop_error hd (descLoop_miss_error ⟨tn, htn, ?_, hres⟩)
    omega

/-- Witness for `mesh_dag_edges_characterization` on a two-descriptor
hierarchy with one edge. -/
theorem mesh_dag_edges_characterization_witness :
    ([(("D000002" : String), ("D000001" : String))] : List (String × String)).Nodup :=
  (mesh_dag_edges_characterization.1
    [{ name := "A", unique_identifier := "D000001", mesh_dag_numbers := [["D02"]] },
     { name := "B", unique_identifier := "D000002",
       mesh_dag_numbers := [["D02", "012"]] }]
    [("D000002", "D000001")]
    (by decide) (by decide) (by decide)).2

end Mesh
